import Mathlib

/-!
# Verification of the process-data aggregation core

A shallow embedding of `src/process_data.py` (`ProcessDataManager`).
Python floats are modelled as rationals (`ℚ`); the OS (psutil) is modelled
as explicit inputs: a poll receives the system CPU reading, the logical-core
count and the sequence of per-process iteration results, and the
instance/termination/system-info operations receive the live per-pid data
they would read from the OS.  Python's insertion-ordered `dict`/`defaultdict`
is modelled as an association list in insertion order, and `list.sort`
(a stable sort by key, with `reverse=True` keeping ties in original order)
is modelled by `List.mergeSort`, which is likewise a stable sort.
-/

namespace ProcessData

/-- The result of `psutil` `memory_info`: resident set size and, on platforms
that expose it, private bytes (both in bytes). -/
structure MemInfo where
  rss : ℚ
  priv : Option ℚ
deriving DecidableEq

/-- One row yielded by `psutil.process_iter(['pid','name','memory_info','exe',
'status','create_time','cpu_percent'])`, after its attributes were read
successfully.  A falsy (`None`/empty) `exe`, `name` or `status` is modelled by
the empty string; an unavailable `memory_info` or `create_time` by `none`. -/
structure ProcEntry where
  pid : Nat
  name : String
  exe : String
  status : String
  create_time : Option ℚ
  cpu_percent : ℚ
  memory_info : Option MemInfo
deriving DecidableEq

/-- One step of the per-process iteration in `update_process_data`:
`err` is an entry whose field read raised `psutil.NoSuchProcess` or
`psutil.AccessDenied` (the `continue` branch at line 111), `ok` a fully
read entry. -/
inductive ProcItem where
  | err : ProcItem
  | ok : ProcEntry → ProcItem
deriving DecidableEq

/-- The per-name aggregate held in `process_groups` / `temp_groups`.
`start_time` is `none` while the `'start_time'` key is absent, and
`pid_memory` starts `[]` in place of the absent `'pid_memory'` key. -/
structure GroupData where
  pids : List Nat
  memory : ℚ
  cpu : ℚ
  status : String
  pid_memory : List (Nat × ℚ)
  start_time : Option ℚ
deriving DecidableEq

/-- The value materialised by the `defaultdict` factory
`lambda: {'pids': [], 'memory': 0.0, 'cpu': 0.0, 'status': 'Running'}`. -/
def defaultGroup : GroupData :=
  { pids := [], memory := 0, cpu := 0, status := "Running",
    pid_memory := [], start_time := none }

/-- The `process_groups` mapping, as an association list in dict insertion
order (Python dicts preserve insertion order). -/
abbrev Groups := List (String × GroupData)

/-- Dict lookup on the group mapping. -/
def lookupGroup : Groups → String → Option GroupData
  | [], _ => none
  | (m, g) :: rest, n => if m = n then some g else lookupGroup rest n

/-- Dict assignment on the group mapping: overwrite in place if the key
exists, else append (Python dict insertion order). -/
def setGroup : Groups → String → GroupData → Groups
  | [], n, g => [(n, g)]
  | (m, h) :: rest, n, g =>
      if m = n then (m, g) :: rest else (m, h) :: setGroup rest n g

/-- Python's `str.startswith`, on character lists. -/
def listPrefixOf : List Char → List Char → Bool
  | [], _ => true
  | _ :: _, [] => false
  | a :: as, b :: bs => a == b && listPrefixOf as bs

/-- Substring occurrence on character lists: the needle is a prefix of some
suffix of the hay. -/
def listInfixOf (needle : List Char) : List Char → Bool
  | [] => needle.isEmpty
  | b :: bs => listPrefixOf needle (b :: bs) || listInfixOf needle bs

/-- Python's substring test `needle in hay`. -/
def strContains (hay needle : String) : Bool :=
  listInfixOf needle.data hay.data

/-- Python's `str.lower()`: lower-case each character (ASCII case folding,
matching the process names the source compares). -/
def strLower (s : String) : String :=
  ⟨s.data.map Char.toLower⟩

/-- The skip filter at line 60 of `update_process_data`:
`if not proc_info['exe'] or "System" in proc_info['name'] or
proc_info['name'].startswith("svchost"): continue`. -/
def skipEntry (e : ProcEntry) : Bool :=
  e.exe = "" || strContains e.name "System" || listPrefixOf "svchost".data e.name.data

/-- Python `proc_info['name'] or "Unknown"`. -/
def effName (e : ProcEntry) : String :=
  if e.name = "" then "Unknown" else e.name

/-- Python `proc_info['status'] or "Running"`. -/
def effStatus (e : ProcEntry) : String :=
  if e.status = "" then "Running" else e.status

/-- Memory normalisation (lines 68-79): private bytes when the platform
exposes them, else RSS, converted to MB; `0` when `memory_info` is missing. -/
def memMB (e : ProcEntry) : ℚ :=
  match e.memory_info with
  | none => 0
  | some mi =>
      match mi.priv with
      | some p => p / 1024 ^ 2
      | none => mi.rss / 1024 ^ 2

/-- CPU normalisation (lines 85-90, also lines 255-257): divide the raw
per-process percentage by the logical-core count and cap at 100 — but only
when the reported core count is positive, and with no lower clamp. -/
def normCpu (cpu_count : Nat) (raw : ℚ) : ℚ :=
  if 0 < cpu_count then min (raw / cpu_count) 100 else raw

/-- The `start_time` update (lines 104-109): set on the first truthy
`create_time`, thereafter keep the minimum.  A missing (`None`) or zero
(falsy) `create_time` leaves the field untouched. -/
def updStart (old : Option ℚ) (ct : Option ℚ) : Option ℚ :=
  match ct with
  | none => old
  | some t =>
      if t = 0 then old
      else
        match old with
        | none => some t
        | some s => some (min s t)

/-- Dict assignment on the per-pid memory map `pid_memory[pid] = mem_mb`. -/
def setPidMem : List (Nat × ℚ) → Nat → ℚ → List (Nat × ℚ)
  | [], p, m => [(p, m)]
  | (q, v) :: rest, p, m =>
      if q = p then (q, m) :: rest else (q, v) :: setPidMem rest p m

/-- Lookup on the per-pid memory map. -/
def lookupPidMem : List (Nat × ℚ) → Nat → Option ℚ
  | [], _ => none
  | (q, v) :: rest, p => if q = p then some v else lookupPidMem rest p

/-- The mutation of `temp_groups[name]` performed for one surviving entry
(lines 93-109): append the pid, add the memory and normalised CPU, overwrite
the status (last seen wins), record the pid's memory, and fold the
`start_time` minimum. -/
def combine (cpu_count : Nat) (g : GroupData) (e : ProcEntry) : GroupData :=
  { pids := g.pids ++ [e.pid],
    memory := g.memory + memMB e,
    cpu := g.cpu + normCpu cpu_count e.cpu_percent,
    status := effStatus e,
    pid_memory := setPidMem g.pid_memory e.pid (memMB e),
    start_time := updStart g.start_time e.create_time }

/-- Process one surviving entry against the temporary mapping: fetch (or
auto-vivify) `temp_groups[name]` and apply `combine`. -/
def applyEntry (cpu_count : Nat) (gs : Groups) (e : ProcEntry) : Groups :=
  setGroup gs (effName e)
    (combine cpu_count ((lookupGroup gs (effName e)).getD defaultGroup) e)

/-- Process one iteration result: vanished/denied entries and entries caught
by the skip filter leave the mapping unchanged. -/
def stepEntry (cpu_count : Nat) (gs : Groups) : ProcItem → Groups
  | .err => gs
  | .ok e => if skipEntry e then gs else applyEntry cpu_count gs e

/-- The whole per-process loop of `update_process_data`: fold the iteration
results into an initially empty `temp_groups`. -/
def buildGroups (cpu_count : Nat) (items : List ProcItem) : Groups :=
  items.foldl (stepEntry cpu_count) []

/-- The surviving entries of a poll: those yielded without a
vanished/denied error and not caught by the skip filter. -/
def survivors (items : List ProcItem) : List ProcEntry :=
  items.filterMap fun it =>
    match it with
    | .err => none
    | .ok e => if skipEntry e then none else some e

/-- The truthy `create_time` of an entry (0 when absent); the value the
`start_time` minimum is taken over. -/
def ctOf (e : ProcEntry) : ℚ :=
  e.create_time.getD 0

/-- The `deque(maxlen=60)` append: drop from the front once 60 entries are
exceeded. -/
def pushHistory (h : List ℚ) (x : ℚ) : List ℚ :=
  let h' := h ++ [x]
  if h'.length ≤ 60 then h' else h'.drop (h'.length - 60)

/-- One element of the instance list built by `get_process_instances`
(lines 259-265).  The source renders `memory` and `cpu` as one-decimal
strings for display; the numeric values are kept here. -/
structure InstanceRec where
  pid : Nat
  memory : ℚ
  cpu : ℚ
  status : String
  tag : String
deriving DecidableEq

/-- A cached instance list (`process_instances_cache[name]`). -/
structure CacheEntry where
  timestamp : ℚ
  instances : List InstanceRec
deriving DecidableEq

/-- The mutable state of a `ProcessDataManager`. -/
structure MState where
  running : Bool
  data_ready : Bool
  process_groups : Groups
  cpu_data_history : List ℚ
  process_instances_cache : List (String × CacheEntry)
deriving DecidableEq

/-- The inputs one call of `update_process_data` reads from the OS.
`sysCpu = none` models `psutil.cpu_percent` itself raising (an
enumeration-level failure before anything was collected); `items` are the
per-process results yielded before any enumeration-level error; and
`enumFailed` records whether an enumeration-level exception interrupted the
iteration after `items` (the `except` at line 114). -/
structure PollInput where
  sysCpu : Option ℚ
  cpu_count : Nat
  items : List ProcItem
  enumFailed : Bool

/-- Model of `update_process_data` (lines 41-123).  Note that the publishing step at
lines 118-121 (`process_groups.clear(); process_groups.update(temp_groups)`)
runs even when the enumeration raised: `enumFailed` does not influence the
result, and the partially built `temp_groups` (empty when `cpu_percent`
itself raised) replaces the previous mapping. -/
def update_process_data (st : MState) (inp : PollInput) : MState :=
  match inp.sysCpu with
  | none => { st with process_groups := [] }
  | some c =>
      { st with
        cpu_data_history := pushHistory st.cpu_data_history c,
        process_groups := buildGroups inp.cpu_count inp.items }

/-- The fate of the `terminate()` call for one pid inside
`kill_process_by_name` (lines 145-160). -/
inductive KillOutcome where
  | ok : KillOutcome
  | noSuch : KillOutcome
  | denied : KillOutcome
  | err : KillOutcome
deriving DecidableEq

/-- The body of `kill_process_by_name`'s worker thread (lines 127-164),
returning the `(process_name, killed_count, message)` triple passed to the
completion callback.  `outcome` gives each pid's terminate result; failed
pids are only logged, so the loop never aborts early. -/
def kill_process_by_name (gs : Groups) (process_name : String)
    (outcome : Nat → KillOutcome) : String × Nat × String :=
  match lookupGroup gs process_name with
  | none => (process_name, 0, "Process already terminated")
  | some g =>
      let pids_to_kill := g.pids
      if pids_to_kill = [] then
        (process_name, 0, "No running instances found")
      else
        let killed_count :=
          pids_to_kill.countP fun p => decide (outcome p = KillOutcome.ok)
        (process_name, killed_count,
          if killed_count > 0 then "Success" else "Failed to kill any processes")

/-- The per-group summary row returned by `get_filtered_processes`
(lines 182-188). -/
structure Summary where
  memory : ℚ
  cpu : ℚ
  status : String
  pids : Nat
  start_time : ℚ
deriving DecidableEq

/-- The copy taken at lines 182-188: aggregate metrics, the pid count, and
`data.get('start_time', 0)`. -/
def mkSummary (g : GroupData) : Summary :=
  { memory := g.memory, cpu := g.cpu, status := g.status,
    pids := g.pids.length, start_time := g.start_time.getD 0 }

/-- The filter predicate at line 180:
`if not filter_text or filter_text.lower() in name.lower()`. -/
def passesFilter (filter_text name : String) : Bool :=
  filter_text = "" || strContains (strLower name) (strLower filter_text)

/-- The filtered copy built under the lock (lines 177-188), in the
snapshot's enumeration order. -/
def filterGroups (gs : Groups) (filter_text : String) : List (String × Summary) :=
  (gs.filter fun p => passesFilter filter_text p.1).map fun p => (p.1, mkSummary p.2)

/-- The comparison used to model Python's stable `list.sort(key=key,
reverse=rev)`: ascending on the key, with the key order flipped when
`reverse` is set (CPython's `reverse` keeps equal-key ties in original
order, which flipping the key comparison in a stable sort reproduces). -/
def pySortLe {α β : Type} [LinearOrder β] (key : α → β) (rev : Bool)
    (a b : α) : Bool :=
  if rev then decide (key b ≤ key a) else decide (key a ≤ key b)

/-- Python `list.sort(key=key, reverse=rev)` as a stable sort. -/
def pySort {α β : Type} [LinearOrder β] (key : α → β) (rev : Bool)
    (l : List α) : List α :=
  l.mergeSort (pySortLe key rev)

/-- Model of `get_filtered_processes` (lines 175-200): filter under the lock, then
sort by the selected column; an unrecognised `sort_column` leaves the
filtered list unsorted. -/
def get_filtered_processes (gs : Groups) (filter_text : String)
    (sort_column : String) (sort_reverse : Bool) : List (String × Summary) :=
  let filtered_items := filterGroups gs filter_text
  if sort_column = "Memory (MB)" then
    pySort (fun x => x.2.memory) sort_reverse filtered_items
  else if sort_column = "CPU%" then
    pySort (fun x => x.2.cpu) sort_reverse filtered_items
  else if sort_column = "Name" then
    pySort (fun x => strLower x.1) sort_reverse filtered_items
  else if sort_column = "Start Time" then
    pySort (fun x => x.2.start_time) sort_reverse filtered_items
  else
    filtered_items

/-- Live per-pid data read inside `get_process_instances` (lines 234-252):
`memory_info()`, `status()` and the raw `cpu_percent(interval=0.1)`. -/
structure LiveProc where
  memory_info : MemInfo
  status : String
  cpu_percent : ℚ
deriving DecidableEq

/-- The OS as seen by one `get_process_instances` recomputation: the live
data per pid (`none` models `psutil.NoSuchProcess`/`psutil.AccessDenied`,
the skipped entries of lines 268-269), the `(pid, name)` rows of the
fallback `psutil.process_iter(['pid','name'])` scan, and the logical-core
count. -/
structure InstEnv where
  live : Nat → Option LiveProc
  sysProcs : List (Nat × String)
  cpu_count : Nat

/-- Memory for one instance (lines 237-249): the group's recorded value for
consistency with the main view when available, else the private/RSS
fallback recomputation. -/
def instanceMemMB (pid_memory : List (Nat × ℚ)) (pid : Nat) (mi : MemInfo) : ℚ :=
  match lookupPidMem pid_memory pid with
  | some m => m
  | none =>
      match mi.priv with
      | some p => p / 1024 ^ 2
      | none => mi.rss / 1024 ^ 2

/-- One instance record (lines 232-266): `none` when the process vanished or
access was denied (silently skipped). -/
def instanceOfPid (env : InstEnv) (pid_memory : List (Nat × ℚ))
    (pid : Nat) : Option InstanceRec :=
  match env.live pid with
  | none => none
  | some lp =>
      let mem_mb := instanceMemMB pid_memory pid lp.memory_info
      let cpu_pct := normCpu env.cpu_count lp.cpu_percent
      some { pid := pid, memory := mem_mb, cpu := cpu_pct, status := lp.status,
             tag := if mem_mb > 500 then "high_mem"
                    else if cpu_pct > 50 then "high_cpu" else "" }

/-- The recomputation path of `get_process_instances` (lines 210-269): take
the group's pid list and recorded memories under the lock, fall back to an
OS-wide name-match scan when that list is empty, then build the instance
list, skipping vanished/denied pids. -/
def computeInstances (st : MState) (name : String) (env : InstEnv) :
    List InstanceRec :=
  let src :=
    match lookupGroup st.process_groups name with
    | some g => (g.pids, g.pid_memory)
    | none => ([], [])
  let pids_to_check :=
    if src.1 = [] then (env.sysProcs.filter fun q => q.2 = name).map Prod.fst
    else src.1
  pids_to_check.filterMap (instanceOfPid env src.2)

/-- Dict assignment on the instance cache. -/
def setCache : List (String × CacheEntry) → String → CacheEntry →
    List (String × CacheEntry)
  | [], n, e => [(n, e)]
  | (m, d) :: rest, n, e =>
      if m = n then (m, e) :: rest else (m, d) :: setCache rest n e

/-- Dict lookup on the instance cache. -/
def lookupCache : List (String × CacheEntry) → String → Option CacheEntry
  | [], _ => none
  | (m, e) :: rest, n => if m = n then some e else lookupCache rest n

/-- Model of `get_process_instances` (lines 202-280): return the cached list when an
entry exists and is strictly less than 2 seconds old; otherwise recompute
and store a fresh entry stamped `now` (the source stamps it with a second
`time.time()` call made moments after the freshness check). -/
def get_process_instances (st : MState) (name : String) (now : ℚ)
    (env : InstEnv) : List InstanceRec × MState :=
  match lookupCache st.process_instances_cache name with
  | some e =>
      if now - e.timestamp < 2 then (e.instances, st)
      else
        let instances := computeInstances st name env
        (instances,
          { st with process_instances_cache :=
              setCache st.process_instances_cache name ⟨now, instances⟩ })
  | none =>
      let instances := computeInstances st name env
      (instances,
        { st with process_instances_cache :=
            setCache st.process_instances_cache name ⟨now, instances⟩ })

/-- The `psutil.disk_usage` result (bytes, plus the reported percentage). -/
structure DiskUsage where
  percent : ℚ
  used : ℚ
  total : ℚ
deriving DecidableEq

/-- One mounted partition as read by `get_system_info` (lines 312-323):
`usage = none` models `psutil.disk_usage` raising
`PermissionError`/`FileNotFoundError` (skipped). -/
structure DiskRead where
  mountpoint : String
  usage : Option DiskUsage
deriving DecidableEq

/-- One entry of the `disk_usage` list returned by `get_system_info`. -/
structure DiskPart where
  mountpoint : String
  percent : ℚ
  used : ℚ
  total : ℚ
deriving DecidableEq

/-- The OS readings consumed by one successful `get_system_info` call. -/
structure SysEnv where
  cpu_count : Nat
  current_cpu : ℚ
  mem_total : ℚ
  mem_available : ℚ
  boot_time : ℚ
  now : ℚ
  disks : List DiskRead

/-- The record returned by `get_system_info` (lines 325-333).  The source
formats the uptime as the string `f"{days}d {hours}h {mins}m"`; the three
integers are kept here. -/
structure SysInfo where
  cpu_count : Nat
  cpu_percent : ℚ
  cpu_history : List ℚ
  memory_total : ℚ
  uptime_days : ℤ
  uptime_hours : ℤ
  uptime_mins : ℤ
  memory_percent : ℚ
  disk_usage : List DiskPart
deriving DecidableEq

/-- Model of `get_system_info` (lines 282-337), successful path.  Note line 290:
the freshly sampled CPU percentage is appended to `cpu_data_history`, so the
call mutates the manager's state; the function returns the result record
together with the updated state. -/
def get_system_info (st : MState) (env : SysEnv) : SysInfo × MState :=
  let hist := pushHistory st.cpu_data_history env.current_cpu
  let st' := { st with cpu_data_history := hist }
  let uptime_seconds := env.now - env.boot_time
  let total_phys_kb := env.mem_total / 1024
  let avail_phys_kb := env.mem_available / 1024
  let used_phys_kb := total_phys_kb - avail_phys_kb
  ({ cpu_count := env.cpu_count,
     cpu_percent := env.current_cpu,
     cpu_history := hist,
     memory_total := env.mem_total / 1024 ^ 3,
     uptime_days := ⌊uptime_seconds / 86400⌋,
     uptime_hours := ⌊(uptime_seconds - 86400 * (⌊uptime_seconds / 86400⌋ : ℤ)) / 3600⌋,
     uptime_mins := ⌊(uptime_seconds - 3600 * (⌊uptime_seconds / 3600⌋ : ℤ)) / 60⌋,
     memory_percent := used_phys_kb / total_phys_kb * 100,
     disk_usage := env.disks.filterMap fun d =>
       match d.usage with
       | none => none
       | some u =>
           if u.total > 0 then
             some { mountpoint := d.mountpoint, percent := u.percent,
                    used := u.used / 1024 ^ 3, total := u.total / 1024 ^ 3 }
           else none }, st')

/-- Model of `shutdown` (lines 339-341). -/
def shutdown (st : MState) : MState :=
  { st with running := false }

/-! ## Concrete fixtures used by witnesses and counterexamples -/

/-- A sample aggregated group. -/
def grpA : GroupData :=
  { pids := [10], memory := 100, cpu := 1, status := "running",
    pid_memory := [(10, 100)], start_time := some 5 }

/-- A manager state holding one group, an empty CPU history and an empty
instance cache. -/
def stA : MState :=
  { running := true, data_ready := true, process_groups := [("app.exe", grpA)],
    cpu_data_history := [], process_instances_cache := [] }

/-- A poll on which `psutil.cpu_percent` itself raised: an enumeration-level
failure before any process entry was collected. -/
def enumFailInp : PollInput :=
  { sysCpu := none, cpu_count := 4, items := [], enumFailed := true }

/-- OS readings for one `get_system_info` call. -/
def envSysA : SysEnv :=
  { cpu_count := 4, current_cpu := 50, mem_total := 2 ^ 33,
    mem_available := 2 ^ 32, boot_time := 0, now := 1000, disks := [] }

/-- A process entry whose raw `cpu_percent` reading is negative. -/
def negCpuEntry : ProcEntry :=
  { pid := 7, name := "bad.exe", exe := "C:/bad.exe", status := "running",
    create_time := some 1, cpu_percent := -8, memory_info := none }

/-- A group with three live pids, used for the termination scenario. -/
def killGrp : GroupData :=
  { pids := [1, 2, 3], memory := 300, cpu := 6, status := "running",
    pid_memory := [(1, 100), (2, 100), (3, 100)], start_time := some 5 }

/-- Snapshot mapping for the termination scenario. -/
def killGs : Groups := [("app.exe", killGrp)]

/-- Terminate outcomes for the scenario: pids 1 and 3 accept the signal,
pid 2 is already gone. -/
def killOut : Nat → KillOutcome :=
  fun p => if p = 2 then KillOutcome.noSuch else KillOutcome.ok

/-- A group whose pid list is empty. -/
def idleGrp : GroupData :=
  { pids := [], memory := 0, cpu := 0, status := "running",
    pid_memory := [], start_time := none }

/-- Snapshot mapping holding a group with no pids. -/
def idleGs : Groups := [("idle.exe", idleGrp)]

/-- A cached instance-lookup entry created at time 10. -/
def entC : CacheEntry := { timestamp := 10, instances := [] }

/-- A manager state holding one instance-cache entry for `"x"`. -/
def stC : MState :=
  { running := true, data_ready := true, process_groups := [],
    cpu_data_history := [], process_instances_cache := [("x", entC)] }

/-- An instance-lookup environment in which every pid has vanished. -/
def envInstA : InstEnv :=
  { live := fun _ => none, sysProcs := [], cpu_count := 1 }

/-- First process entry of the aggregation scenario: pid 10, 120 MB RSS
(125829120 bytes), raw CPU 5 on a single-core machine. -/
def scenE1 : ProcEntry :=
  { pid := 10, name := "app.exe", exe := "C:/app.exe", status := "running",
    create_time := some 1000, cpu_percent := 5,
    memory_info := some { rss := 125829120, priv := none } }

/-- Second process entry of the aggregation scenario: pid 11, 80 MB RSS
(83886080 bytes), raw CPU 3. -/
def scenE2 : ProcEntry :=
  { pid := 11, name := "app.exe", exe := "C:/app.exe", status := "running",
    create_time := none, cpu_percent := 3,
    memory_info := some { rss := 83886080, priv := none } }

/-- The scenario poll: both `app.exe` entries survive on a 1-core machine. -/
def scenInp : PollInput :=
  { sysCpu := some 20, cpu_count := 1,
    items := [ProcItem.ok scenE1, ProcItem.ok scenE2], enumFailed := false }

/-- A freshly constructed manager state. -/
def st0 : MState :=
  { running := true, data_ready := false, process_groups := [],
    cpu_data_history := [], process_instances_cache := [] }

end ProcessData

/-! ## Claim theorems -/

namespace ProcessData

/-- Claim C1, counterexample.  The claim says a systemic enumeration error
leaves the Snapshot Store's mapping exactly as it was.  On the state `stA`
(mapping holds `app.exe`) and the failing poll `enumFailInp` (the
enumeration-level error occurred before any entry, outside the per-process
vanished/denied cases), the code still runs the publishing step and replaces
the mapping with the empty partial one, so the mapping changes. -/
theorem claim1_counterexample :
    (update_process_data stA enumFailInp).process_groups ≠ stA.process_groups := by
  decide

/-- Claim C1, amended.  If a systemic error occurs while enumerating the
process table during a poll, the poll is not a no-op: the publishing step
still runs, replacing the Snapshot Store's mapping with the partial mapping
built before the error — empty when the error preceded every entry — rather
than retaining the stale snapshot. -/
theorem claim1_enumeration_error_replaces_snapshot :
    ∀ (st : MState) (inp : PollInput), inp.enumFailed = true →
      (update_process_data st inp).process_groups =
        (match inp.sysCpu with
         | none => []
         | some _ => buildGroups inp.cpu_count inp.items) := by
  intro st inp _
  cases hc : inp.sysCpu <;> simp [update_process_data, hc]

/-- Claim C1, witness.  The amended theorem at the concrete failing poll. -/
theorem claim1_witness :
    enumFailInp.enumFailed = true ∧
    (update_process_data stA enumFailInp).process_groups = [] :=
  ⟨rfl, claim1_enumeration_error_replaces_snapshot stA enumFailInp rfl⟩

/-- Claim C3, counterexample.  The claim says `getSystemInfo` does not modify
the manager's state.  On a state with empty CPU history it appends the
sampled CPU percentage (line 290), so the state changes. -/
theorem claim3_counterexample :
    (get_system_info stA envSysA).2 ≠ stA := by
  decide

/-- Claim C3, amended.  `getSystemInfo` is not read-only: each successful call
appends the freshly sampled system CPU percentage to `CpuHistory` — the very
same bounded append the Sampler performs — and leaves every other field of
the manager's state unchanged.  `CpuHistory` therefore receives appends from
both the Sampler's poll and `getSystemInfo`. -/
theorem claim3_get_system_info_appends_history :
    ∀ (st : MState) (env : SysEnv),
      (get_system_info st env).2 =
        { st with cpu_data_history :=
            pushHistory st.cpu_data_history env.current_cpu } := by
  intro st env
  rfl

/-- Claim C4, counterexample.  The claim says every poll-produced sample has
`0 ≤ cpu_fraction ≤ 100` for every raw input.  The code applies only the
upper clamp `min(raw / cpu_count, 100.0)`, so a negative raw reading passes
through: a poll over the single entry `negCpuEntry` (raw `-8`, 4 cores)
produces the group `bad.exe` with cpu `-2 < 0`. -/
theorem claim4_counterexample :
    normCpu 4 (-8) = -2 ∧
    ((lookupGroup (buildGroups 4 [ProcItem.ok negCpuEntry]) "bad.exe").getD
        defaultGroup).cpu < 0 := by
  have h1 : normCpu 4 (-8) = -2 := by
    rw [normCpu, if_pos (by norm_num), min_def]
    norm_num
  have h2 :
      ((lookupGroup (buildGroups 4 [ProcItem.ok negCpuEntry]) "bad.exe").getD
        defaultGroup).cpu = 0 + normCpu 4 (-8) := by rfl
  refine ⟨h1, ?_⟩
  rw [h2, h1]
  norm_num

/-- Claim C4, amended.  With a positive logical-core count and a nonnegative
raw reading, the normalised per-process CPU value equals
`min(raw / cores, 100)` and lies in `[0, 100]`; the code has no lower clamp,
so the bound can fail for negative raw inputs, and no clamp at all is
applied when the core count is reported as `0`.  Every instance detail
produced by `getInstances` normalises with the same `normCpu`. -/
theorem claim4_norm_cpu_bounds :
    (∀ (cc : Nat) (raw : ℚ), 0 < cc → 0 ≤ raw →
       normCpu cc raw = min (raw / cc) 100 ∧
       0 ≤ normCpu cc raw ∧ normCpu cc raw ≤ 100) ∧
    (∀ (env : InstEnv) (pm : List (Nat × ℚ)) (pid : Nat) (lp : LiveProc)
       (r : InstanceRec),
       env.live pid = some lp → instanceOfPid env pm pid = some r →
       r.cpu = normCpu env.cpu_count lp.cpu_percent) := by
  constructor
  · intro cc raw hcc hraw
    have hform : normCpu cc raw = min (raw / cc) 100 := by
      simp [normCpu, hcc]
    refine ⟨hform, ?_, ?_⟩
    · rw [hform]
      have h0 : (0 : ℚ) ≤ raw / cc :=
        div_nonneg hraw (by exact_mod_cast Nat.zero_le cc)
      exact le_min h0 (by norm_num)
    · rw [hform]
      exact min_le_right _ _
  · intro env pm pid lp r hlive hr
    simp only [instanceOfPid, hlive] at hr
    cases hr
    rfl

/-- Claim C4, witness.  The amended theorem at 4 cores and raw reading 250:
the value is `min(62.5, 100) = 62.5`, inside `[0, 100]`. -/
theorem claim4_witness :
    (0 < 4 ∧ (0 : ℚ) ≤ 250) ∧
    (normCpu 4 250 = min ((250 : ℚ) / 4) 100 ∧
     0 ≤ normCpu 4 250 ∧ normCpu 4 250 ≤ 100) :=
  ⟨⟨by decide, by decide⟩, claim4_norm_cpu_bounds.1 4 250 (by decide) (by decide)⟩

/-- Claim C5.  `killByName`: a name absent from the snapshot mapping reports
zero killed with the message `"Process already terminated"` (which carries
the reason `"already terminated"`); otherwise the reported count is exactly
the number of snapshotted pids whose terminate signal was accepted — per-pid
failures never abort the remaining attempts, since the count is a pointwise
count over the whole snapshotted pid list — and the message is `"Success"`
iff at least one pid was killed, else `"Failed to kill any processes"`. -/
theorem claim5_kill_by_name :
    (∀ (gs : Groups) (n : String) (out : Nat → KillOutcome),
       lookupGroup gs n = none →
       kill_process_by_name gs n out = (n, 0, "Process already terminated") ∧
       strContains "Process already terminated" "already terminated" = true) ∧
    (∀ (gs : Groups) (n : String) (out : Nat → KillOutcome) (g : GroupData),
       lookupGroup gs n = some g → g.pids ≠ [] →
       (kill_process_by_name gs n out).2.1 =
         g.pids.countP (fun p => decide (out p = KillOutcome.ok)) ∧
       (kill_process_by_name gs n out).2.2 =
         (if 0 < g.pids.countP (fun p => decide (out p = KillOutcome.ok))
          then "Success" else "Failed to kill any processes")) := by
  constructor
  · intro gs n out h
    refine ⟨?_, by decide⟩
    simp [kill_process_by_name, h]
  · intro gs n out g hg hne
    simp [kill_process_by_name, hg, hne]

/-- Claim C5, witness.  The scenario: 3 live pids of which 2 accept the
terminate signal and 1 is already gone yields `killedCount = 2`,
`message = "Success"`. -/
theorem claim5_witness :
    (kill_process_by_name killGs "app.exe" killOut).2.1 = 2 ∧
    (kill_process_by_name killGs "app.exe" killOut).2.2 = "Success" := by
  obtain ⟨h1, h2⟩ :=
    claim5_kill_by_name.2 killGs "app.exe" killOut killGrp (by decide) (by decide)
  exact ⟨h1.trans (by decide), h2.trans (by decide)⟩

/-- Claim C9.  An unrecognised `sort_column` raises no error: every branch of
the sort dispatch is skipped and the filtered items are returned unsorted,
in the snapshot's original enumeration order. -/
theorem claim9_unknown_sort_column :
    ∀ (gs : Groups) (ft col : String) (rev : Bool),
      col ≠ "Memory (MB)" → col ≠ "CPU%" → col ≠ "Name" → col ≠ "Start Time" →
      get_filtered_processes gs ft col rev = filterGroups gs ft := by
  intro gs ft col rev h1 h2 h3 h4
  simp [get_filtered_processes, h1, h2, h3, h4]

/-- Claim C9, witness.  The theorem at the unrecognised column `"PID"`. -/
theorem claim9_witness :
    ("PID" : String) ≠ "Memory (MB)" ∧
    get_filtered_processes stA.process_groups "" "PID" true =
      filterGroups stA.process_groups "" :=
  ⟨by decide,
   claim9_unknown_sort_column stA.process_groups "" "PID" true
     (by decide) (by decide) (by decide) (by decide)⟩

/-- Claim C10.  When the name is present in the mapping but its pid list is
empty, `killByName` reports `(name, 0, "No running instances found")` — a
third message value — and the result does not depend on any terminate
outcome, i.e. no terminate signal is attempted (the function is constant in
`out`). -/
theorem claim10_empty_pid_list :
    ∀ (gs : Groups) (n : String) (g : GroupData) (out : Nat → KillOutcome),
      lookupGroup gs n = some g → g.pids = [] →
      kill_process_by_name gs n out = (n, 0, "No running instances found") := by
  intro gs n g out hl hp
  simp [kill_process_by_name, hl, hp]

/-- Claim C10, witness.  The theorem at a snapshot holding `idle.exe` with no
pids. -/
theorem claim10_witness :
    lookupGroup idleGs "idle.exe" = some idleGrp ∧
    kill_process_by_name idleGs "idle.exe" (fun _ => KillOutcome.ok) =
      ("idle.exe", 0, "No running instances found") :=
  ⟨by decide,
   claim10_empty_pid_list idleGs "idle.exe" idleGrp (fun _ => KillOutcome.ok)
     (by decide) (by decide)⟩

/-! ### Helper lemmas about the modelled stable sort -/

/-- The sort comparison is transitive. -/
theorem pySortLe_trans {α β : Type} [LinearOrder β] (key : α → β) (rev : Bool) :
    ∀ a b c, pySortLe key rev a b → pySortLe key rev b c → pySortLe key rev a c := by
  intro a b c hab hbc
  unfold pySortLe at hab hbc ⊢
  cases rev <;> simp_all <;>
    first
      | exact le_trans hab hbc
      | exact le_trans hbc hab

/-- The sort comparison is total. -/
theorem pySortLe_total {α β : Type} [LinearOrder β] (key : α → β) (rev : Bool) :
    ∀ a b, pySortLe key rev a b || pySortLe key rev b a := by
  intro a b
  unfold pySortLe
  cases rev <;> simp <;> exact le_total _ _

/-- The modelled sort is monotone on the key: descending when `rev` is set,
ascending otherwise. -/
theorem pySort_pairwise {α β : Type} [LinearOrder β] (key : α → β) (rev : Bool)
    (l : List α) :
    (pySort key rev l).Pairwise fun a b =>
      if rev then key b ≤ key a else key a ≤ key b := by
  have h := List.sorted_mergeSort (pySortLe_trans key rev) (pySortLe_total key rev) l
  refine h.imp ?_
  intro a b hab
  unfold pySortLe at hab
  cases rev <;> simp_all

/-- Stability of the modelled sort: within each equal-key class the output
keeps exactly the input's order. -/
theorem pySort_filter_eq {α β : Type} [LinearOrder β] [DecidableEq β]
    (key : α → β) (rev : Bool) (l : List α) (k : β) :
    (pySort key rev l).filter (fun x => decide (key x = k)) =
      l.filter (fun x => decide (key x = k)) := by
  have hpair : (l.filter (fun x => decide (key x = k))).Pairwise
      fun a b => pySortLe key rev a b = true := by
    apply List.pairwise_of_forall_mem_list
    intro a ha b hb
    have ha2 : key a = k := by simpa using (List.mem_filter.mp ha).2
    have hb2 : key b = k := by simpa using (List.mem_filter.mp hb).2
    unfold pySortLe
    cases rev <;> simp [ha2, hb2]
  have hsub : List.Sublist (l.filter (fun x => decide (key x = k)))
      (pySort key rev l) :=
    List.sublist_mergeSort (pySortLe_trans key rev) (pySortLe_total key rev)
      hpair (List.filter_sublist l)
  have hidem : (l.filter (fun x => decide (key x = k))).filter
      (fun x => decide (key x = k)) = l.filter (fun x => decide (key x = k)) :=
    List.filter_eq_self.mpr fun a ha => (List.mem_filter.mp ha).2
  have h2 := hsub.filter (fun x => decide (key x = k))
  rw [hidem] at h2
  have hperm : List.Perm ((pySort key rev l).filter (fun x => decide (key x = k)))
      (l.filter (fun x => decide (key x = k))) :=
    (List.mergeSort_perm l _).filter _
  exact (h2.eq_of_length hperm.length_eq.symm).symm

/-- The operation `get_filtered_processes` permutes the filtered items, whatever the sort
column. -/
theorem get_filtered_perm (gs : Groups) (ft col : String) (rev : Bool) :
    List.Perm (get_filtered_processes gs ft col rev) (filterGroups gs ft) := by
  unfold get_filtered_processes
  split_ifs <;>
    first
      | exact List.mergeSort_perm _ _
      | exact List.Perm.refl _

/-- The empty needle occurs in every string. -/
theorem strContains_empty (s : String) : strContains s "" = true := by
  unfold strContains
  have h : ("" : String).data = [] := rfl
  rw [h]
  cases s.data <;> simp [listInfixOf, listPrefixOf]

/-- The line-180 predicate agrees with plain case-insensitive containment:
the `not filter_text` shortcut only short-circuits the case the containment
test would accept anyway. -/
theorem passesFilter_eq (ft n : String) :
    passesFilter ft n = strContains (strLower n) (strLower ft) := by
  unfold passesFilter
  by_cases h : ft = ""
  · subst h
    have h2 : strLower "" = "" := rfl
    rw [h2, strContains_empty]
    simp
  · simp [h]

/-- Claim C6.  For every snapshot and filter, the sequence returned by
`getFiltered` under each of the four recognised sort keys is monotone on the
chosen field — non-increasing when the descending flag is set,
non-decreasing otherwise — and equal-key ties keep exactly the order of the
filtered items, i.e. the snapshot's original enumeration order. -/
theorem claim6_sort_correctness :
    ∀ (gs : Groups) (ft : String) (rev : Bool),
      ((get_filtered_processes gs ft "Memory (MB)" rev).Pairwise fun a b =>
          if rev then b.2.memory ≤ a.2.memory else a.2.memory ≤ b.2.memory) ∧
      (∀ k : ℚ, (get_filtered_processes gs ft "Memory (MB)" rev).filter
            (fun x => decide (x.2.memory = k)) =
          (filterGroups gs ft).filter (fun x => decide (x.2.memory = k))) ∧
      ((get_filtered_processes gs ft "CPU%" rev).Pairwise fun a b =>
          if rev then b.2.cpu ≤ a.2.cpu else a.2.cpu ≤ b.2.cpu) ∧
      (∀ k : ℚ, (get_filtered_processes gs ft "CPU%" rev).filter
            (fun x => decide (x.2.cpu = k)) =
          (filterGroups gs ft).filter (fun x => decide (x.2.cpu = k))) ∧
      ((get_filtered_processes gs ft "Name" rev).Pairwise fun a b =>
          if rev then strLower b.1 ≤ strLower a.1 else strLower a.1 ≤ strLower b.1) ∧
      (∀ k : String, (get_filtered_processes gs ft "Name" rev).filter
            (fun x => decide (strLower x.1 = k)) =
          (filterGroups gs ft).filter (fun x => decide (strLower x.1 = k))) ∧
      ((get_filtered_processes gs ft "Start Time" rev).Pairwise fun a b =>
          if rev then b.2.start_time ≤ a.2.start_time
          else a.2.start_time ≤ b.2.start_time) ∧
      (∀ k : ℚ, (get_filtered_processes gs ft "Start Time" rev).filter
            (fun x => decide (x.2.start_time = k)) =
          (filterGroups gs ft).filter (fun x => decide (x.2.start_time = k))) := by
  intro gs ft rev
  refine ⟨?_, ?_, ?_, ?_, ?_, ?_, ?_, ?_⟩
  · exact pySort_pairwise (fun x => x.2.memory) rev (filterGroups gs ft)
  · exact fun k => pySort_filter_eq (fun x => x.2.memory) rev (filterGroups gs ft) k
  · exact pySort_pairwise (fun x => x.2.cpu) rev (filterGroups gs ft)
  · exact fun k => pySort_filter_eq (fun x => x.2.cpu) rev (filterGroups gs ft) k
  · exact pySort_pairwise (fun x => strLower x.1) rev (filterGroups gs ft)
  · exact fun k => pySort_filter_eq (fun x => strLower x.1) rev (filterGroups gs ft) k
  · exact pySort_pairwise (fun x => x.2.start_time) rev (filterGroups gs ft)
  · exact fun k => pySort_filter_eq (fun x => x.2.start_time) rev (filterGroups gs ft) k

/-- Claim C7.  `getFiltered` returns exactly the groups whose name contains
the filter text case-insensitively: every returned name contains it, every
group whose name contains it appears in the output (so an omitted name does
not contain it), and the empty filter returns every group (up to the sort's
reordering). -/
theorem claim7_filter_correctness :
    ∀ (gs : Groups) (ft col : String) (rev : Bool),
      (∀ p ∈ get_filtered_processes gs ft col rev,
         strContains (strLower p.1) (strLower ft) = true) ∧
      (∀ g ∈ gs, strContains (strLower g.1) (strLower ft) = true →
         (g.1, mkSummary g.2) ∈ get_filtered_processes gs ft col rev) ∧
      (ft = "" →
         List.Perm (get_filtered_processes gs ft col rev)
           (gs.map fun g => (g.1, mkSummary g.2))) := by
  intro gs ft col rev
  have hmem : ∀ x, x ∈ get_filtered_processes gs ft col rev ↔
      x ∈ filterGroups gs ft := fun x => (get_filtered_perm gs ft col rev).mem_iff
  refine ⟨?_, ?_, ?_⟩
  · intro p hp
    rw [hmem] at hp
    unfold filterGroups at hp
    obtain ⟨q, hq, rfl⟩ := List.mem_map.mp hp
    have h := (List.mem_filter.mp hq).2
    rwa [passesFilter_eq] at h
  · intro g hg hc
    rw [hmem]
    unfold filterGroups
    refine List.mem_map.mpr ⟨g, List.mem_filter.mpr ⟨hg, ?_⟩, rfl⟩
    rwa [passesFilter_eq]
  · intro h
    subst h
    have heq : filterGroups gs "" = gs.map fun g => (g.1, mkSummary g.2) := by
      unfold filterGroups
      rw [List.filter_eq_self.mpr]
      intro a _
      simp [passesFilter]
    rw [← heq]
    exact get_filtered_perm gs "" col rev

/-- Claim C7, witness.  The inclusion direction at a concrete snapshot: the
group `app.exe` matches the filter `"APP"` case-insensitively and appears in
the output. -/
theorem claim7_witness :
    strContains (strLower "app.exe") (strLower "APP") = true ∧
    ("app.exe", mkSummary grpA) ∈
      get_filtered_processes stA.process_groups "APP" "Name" false :=
  ⟨by decide,
   (claim7_filter_correctness stA.process_groups "APP" "Name" false).2.1
     ("app.exe", grpA) (by decide) (by decide)⟩

/-! ### Helper lemmas about the instance cache -/

/-- A fresh cache entry (strictly under 2 seconds old) is returned as-is and
the state is untouched. -/
theorem getInst_cached (st : MState) (name : String) (now : ℚ) (env : InstEnv)
    (e : CacheEntry)
    (hl : lookupCache st.process_instances_cache name = some e)
    (hf : now - e.timestamp < 2) :
    get_process_instances st name now env = (e.instances, st) := by
  simp [get_process_instances, hl, hf]

/-- With no entry, or only a stale one (2 seconds or older), the instance
list is recomputed and a fresh entry stamped `now` is stored. -/
theorem getInst_recompute (st : MState) (name : String) (now : ℚ) (env : InstEnv)
    (hs : ∀ e, lookupCache st.process_instances_cache name = some e →
          2 ≤ now - e.timestamp) :
    get_process_instances st name now env =
      (computeInstances st name env,
       { st with process_instances_cache :=
           setCache st.process_instances_cache name (CacheEntry.mk now
             (computeInstances st name env)) }) := by
  cases hl : lookupCache st.process_instances_cache name with
  | none => simp [get_process_instances, hl]
  | some e =>
      have h2 : ¬ now - e.timestamp < 2 := not_lt.mpr (hs e hl)
      simp [get_process_instances, hl, h2]

/-- Writing a cache entry makes it the one found for its name. -/
theorem lookupCache_setCache (c : List (String × CacheEntry)) (n : String)
    (e : CacheEntry) : lookupCache (setCache c n e) n = some e := by
  induction c with
  | nil => simp [setCache, lookupCache]
  | cons hd tl ih =>
      obtain ⟨m, d⟩ := hd
      by_cases h : m = n
      · simp [setCache, lookupCache, h]
      · simp [setCache, lookupCache, h, ih]

/-- Claim C8.  `getInstances(name)` returns the cached entry exactly when one
exists and is strictly less than 2 seconds old (leaving the state
untouched); otherwise — entry absent or 2+ seconds old — it recomputes the
instance list and stores a fresh entry; and a second call strictly within
2 seconds of a recomputing first call returns the identical result with no
state change. -/
theorem claim8_cache_freshness :
    (∀ (st : MState) (name : String) (now : ℚ) (env : InstEnv) (e : CacheEntry),
       lookupCache st.process_instances_cache name = some e →
       now - e.timestamp < 2 →
       get_process_instances st name now env = (e.instances, st)) ∧
    (∀ (st : MState) (name : String) (now : ℚ) (env : InstEnv),
       (∀ e, lookupCache st.process_instances_cache name = some e →
             2 ≤ now - e.timestamp) →
       get_process_instances st name now env =
         (computeInstances st name env,
          { st with process_instances_cache :=
              setCache st.process_instances_cache name (CacheEntry.mk now
                (computeInstances st name env)) })) ∧
    (∀ (st : MState) (name : String) (t1 t2 : ℚ) (env1 env2 : InstEnv),
       (∀ e, lookupCache st.process_instances_cache name = some e →
             2 ≤ t1 - e.timestamp) →
       t2 - t1 < 2 →
       get_process_instances (get_process_instances st name t1 env1).2 name t2 env2 =
         ((get_process_instances st name t1 env1).1,
          (get_process_instances st name t1 env1).2)) := by
  refine ⟨getInst_cached, getInst_recompute, ?_⟩
  intro st name t1 t2 env1 env2 hstale hlt
  rw [getInst_recompute st name t1 env1 hstale]
  exact getInst_cached _ name t2 env2 ⟨t1, computeInstances st name env1⟩
    (lookupCache_setCache st.process_instances_cache name _) hlt

/-- Claim C8, witness.  The cache-hit branch at a concrete state: the entry
for `"x"` was created at time 10 and the call happens at time 11, so the
cached (empty) instance list is returned and the state is unchanged. -/
theorem claim8_witness :
    lookupCache stC.process_instances_cache "x" = some entC ∧
    (11 : ℚ) - entC.timestamp < 2 ∧
    get_process_instances stC "x" 11 envInstA = (entC.instances, stC) :=
  ⟨by decide, by norm_num [entC],
   claim8_cache_freshness.1 stC "x" 11 envInstA entC (by decide)
     (by norm_num [entC])⟩

/-! ### Helper lemmas about poll aggregation -/

/-- The per-item fold over iteration results equals the fold of `applyEntry`
over the surviving entries: errored and skipped entries are no-ops. -/
theorem foldl_stepEntry_survivors (cc : Nat) :
    ∀ (items : List ProcItem) (gs : Groups),
      items.foldl (stepEntry cc) gs = (survivors items).foldl (applyEntry cc) gs := by
  intro items
  induction items with
  | nil => intro gs; rfl
  | cons it rest ih =>
      intro gs
      cases it with
      | err =>
          simp [List.foldl_cons, stepEntry, survivors, List.filterMap_cons, ih]
      | ok e =>
          by_cases h : skipEntry e = true
          · simp [List.foldl_cons, stepEntry, survivors, List.filterMap_cons, h, ih]
          · simp [List.foldl_cons, stepEntry, survivors, List.filterMap_cons, h, ih]

/-- Folding same-named entries over a single-group mapping stays a
single-group mapping and reduces to a plain `combine` fold. -/
theorem foldl_applyEntry_single (cc : Nat) :
    ∀ (es : List ProcEntry) (n : String) (g : GroupData),
      (∀ e ∈ es, effName e = n) →
      es.foldl (applyEntry cc) [(n, g)] = [(n, es.foldl (combine cc) g)] := by
  intro es
  induction es with
  | nil => intro n g _; rfl
  | cons e rest ih =>
      intro n g h
      have hn : effName e = n := h e (List.mem_cons_self e rest)
      have happ : applyEntry cc [(n, g)] e = [(n, combine cc g e)] := by
        simp [applyEntry, hn, lookupGroup, setGroup]
      simp only [List.foldl_cons]
      rw [happ, ih n (combine cc g e) (fun x hx => h x (List.mem_cons_of_mem e hx))]

/-- The `combine` fold appends each member's pid. -/
theorem combine_fold_pids (cc : Nat) :
    ∀ (es : List ProcEntry) (g : GroupData),
      (es.foldl (combine cc) g).pids = g.pids ++ es.map (fun e => e.pid) := by
  intro es
  induction es with
  | nil => intro g; simp
  | cons e rest ih =>
      intro g
      simp [List.foldl_cons, ih, combine]

/-- The `combine` fold adds each member's memory. -/
theorem combine_fold_memory (cc : Nat) :
    ∀ (es : List ProcEntry) (g : GroupData),
      (es.foldl (combine cc) g).memory = g.memory + (es.map memMB).sum := by
  intro es
  induction es with
  | nil => intro g; simp
  | cons e rest ih =>
      intro g
      simp [List.foldl_cons, ih, combine, add_assoc]

/-- The `combine` fold adds each member's normalised CPU. -/
theorem combine_fold_cpu (cc : Nat) :
    ∀ (es : List ProcEntry) (g : GroupData),
      (es.foldl (combine cc) g).cpu =
        g.cpu + (es.map (fun e => normCpu cc e.cpu_percent)).sum := by
  intro es
  induction es with
  | nil => intro g; simp
  | cons e rest ih =>
      intro g
      simp [List.foldl_cons, ih, combine, add_assoc]

/-- The `combine` fold keeps the last-seen status. -/
theorem combine_fold_status (cc : Nat) :
    ∀ (es : List ProcEntry) (g : GroupData),
      (es.foldl (combine cc) g).status = (es.map effStatus).getLastD g.status := by
  intro es
  induction es with
  | nil => intro g; rfl
  | cons e rest ih =>
      intro g
      simp only [List.foldl_cons, List.map_cons, List.getLastD_cons]
      have : (combine cc g e).status = effStatus e := rfl
      rw [ih (combine cc g e), this]

/-- Mapping commutes with `getLastD`. -/
theorem getLastD_map {α β : Type} (f : α → β) :
    ∀ (l : List α) (d : α), (l.map f).getLastD (f d) = f (l.getLastD d) := by
  intro l
  induction l with
  | nil => intro d; rfl
  | cons a t ih =>
      intro d
      simp only [List.map_cons, List.getLastD_cons]
      exact ih a

/-- The `combine` fold takes the running minimum of truthy create-times. -/
theorem combine_fold_start (cc : Nat) :
    ∀ (es : List ProcEntry) (g : GroupData) (s : ℚ),
      g.start_time = some s →
      (∀ e ∈ es, e.create_time = some (ctOf e) ∧ ctOf e ≠ 0) →
      (es.foldl (combine cc) g).start_time =
        some ((es.map ctOf).foldl min s) := by
  intro es
  induction es with
  | nil => intro g s hg _; simpa using hg
  | cons e rest ih =>
      intro g s hg h
      obtain ⟨hct, hnz⟩ := h e (List.mem_cons_self e rest)
      have hstep : (combine cc g e).start_time = some (min s (ctOf e)) := by
        simp [combine, updStart, hct, hg, hnz]
      simp only [List.foldl_cons, List.map_cons]
      exact ih (combine cc g e) (min s (ctOf e)) hstep
        (fun x hx => h x (List.mem_cons_of_mem e hx))

/-- A `min` fold is bounded by its seed and every element. -/
theorem foldl_min_le :
    ∀ (l : List ℚ) (a : ℚ), l.foldl min a ≤ a ∧ ∀ t ∈ l, l.foldl min a ≤ t := by
  intro l
  induction l with
  | nil => intro a; exact ⟨le_refl a, by simp⟩
  | cons b t ih =>
      intro a
      obtain ⟨h1, h2⟩ := ih (min a b)
      simp only [List.foldl_cons]
      refine ⟨le_trans h1 (min_le_left a b), ?_⟩
      intro x hx
      rcases List.mem_cons.mp hx with rfl | hx2
      · exact le_trans h1 (min_le_right a x)
      · exact h2 x hx2

/-- A `min` fold returns its seed or one of its elements. -/
theorem foldl_min_mem :
    ∀ (l : List ℚ) (a : ℚ), l.foldl min a = a ∨ l.foldl min a ∈ l := by
  intro l
  induction l with
  | nil => intro a; exact Or.inl rfl
  | cons b t ih =>
      intro a
      simp only [List.foldl_cons]
      rcases ih (min a b) with h | h
      · rcases min_choice a b with h2 | h2
        · exact Or.inl (h.trans h2)
        · right
          rw [h, h2]
          exact List.mem_cons_self b t
      · exact Or.inr (List.mem_cons_of_mem b h)

/-- Claim C2.  Poll aggregation: whenever the surviving entries of a poll all
share one name, the resulting snapshot is that single group, whose pid list
records every member, whose memory and cpu are the member sums, whose status
is the last member's, and whose start time is the minimum truthy
create-time; concretely, a poll over group `app.exe` with pids `[10, 11]`,
memories `120.0` and `80.0` MB and normalised cpu `5.0` and `3.0` makes
`getFiltered("", "Memory (MB)", true)` return `app.exe` with
`memory = 200.0`, `cpu = 8.0`, `pidCount = 2`. -/
theorem claim2_aggregation :
    (∀ (cc : Nat) (items : List ProcItem) (n : String) (e0 : ProcEntry)
       (es : List ProcEntry),
       survivors items = e0 :: es →
       (∀ e ∈ e0 :: es, effName e = n) →
       ∃ g, buildGroups cc items = [(n, g)] ∧
         g.pids = (e0 :: es).map (fun e => e.pid) ∧
         g.memory = ((e0 :: es).map memMB).sum ∧
         g.cpu = ((e0 :: es).map (fun e => normCpu cc e.cpu_percent)).sum ∧
         g.status = effStatus (es.getLastD e0) ∧
         ((∀ e ∈ e0 :: es, e.create_time = some (ctOf e) ∧ ctOf e ≠ 0) →
            ∃ m, g.start_time = some m ∧ m ∈ (e0 :: es).map ctOf ∧
              ∀ t ∈ (e0 :: es).map ctOf, m ≤ t)) ∧
    get_filtered_processes (update_process_data st0 scenInp).process_groups
        "" "Memory (MB)" true =
      [("app.exe", ⟨200, 8, "running", 2, 1000⟩)] := by
  constructor
  · intro cc items n e0 es hs hn
    have hb : buildGroups cc items =
        [(n, es.foldl (combine cc) (combine cc defaultGroup e0))] := by
      rw [buildGroups, foldl_stepEntry_survivors cc items [], hs]
      have h0 : applyEntry cc [] e0 = [(n, combine cc defaultGroup e0)] := by
        have := hn e0 (List.mem_cons_self e0 es)
        simp [applyEntry, this, lookupGroup, setGroup]
      simp only [List.foldl_cons]
      rw [h0]
      exact foldl_applyEntry_single cc es n _
        (fun x hx => hn x (List.mem_cons_of_mem e0 hx))
    refine ⟨es.foldl (combine cc) (combine cc defaultGroup e0), hb, ?_, ?_, ?_, ?_, ?_⟩
    · rw [combine_fold_pids]
      simp [combine, defaultGroup]
    · rw [combine_fold_memory]
      simp [combine, defaultGroup, add_assoc]
    · rw [combine_fold_cpu]
      simp [combine, defaultGroup, add_assoc]
    · rw [combine_fold_status]
      have : (combine cc defaultGroup e0).status = effStatus e0 := rfl
      rw [this, getLastD_map]
    · intro hct
      obtain ⟨h1, h2⟩ := hct e0 (List.mem_cons_self e0 es)
      have hstart : (combine cc defaultGroup e0).start_time = some (ctOf e0) := by
        simp [combine, defaultGroup, updStart, h1, h2]
      rw [combine_fold_start cc es _ (ctOf e0) hstart
        (fun x hx => hct x (List.mem_cons_of_mem e0 hx))]
      refine ⟨(es.map ctOf).foldl min (ctOf e0), rfl, ?_, ?_⟩
      · simp only [List.map_cons]
        rcases foldl_min_mem (es.map ctOf) (ctOf e0) with h | h
        · rw [h]; exact List.mem_cons_self _ _
        · exact List.mem_cons_of_mem _ h
      · intro t ht
        simp only [List.map_cons] at ht
        obtain ⟨hle, hall⟩ := foldl_min_le (es.map ctOf) (ctOf e0)
        rcases List.mem_cons.mp ht with rfl | h
        · exact hle
        · exact hall t h
  · have hn1 : effName scenE1 = "app.exe" := by decide
    have hn2 : effName scenE2 = "app.exe" := by decide
    have h1 : skipEntry scenE1 = false := by decide
    have h2 : skipEntry scenE2 = false := by decide
    have hb : (update_process_data st0 scenInp).process_groups =
        [("app.exe", combine 1 (combine 1 defaultGroup scenE1) scenE2)] := by
      simp [update_process_data, scenInp, buildGroups, stepEntry, h1, h2,
        applyEntry, hn1, hn2, lookupGroup, setGroup]
    have hgrp : combine 1 (combine 1 defaultGroup scenE1) scenE2 =
        ⟨[10, 11], 200, 8, "running", [(10, 120), (11, 80)], some 1000⟩ := by
      simp [combine, defaultGroup, scenE1, scenE2, effStatus, updStart,
        setPidMem, memMB, normCpu, min_def]
      norm_num
    rw [hb, hgrp]
    simp [get_filtered_processes, filterGroups, passesFilter, mkSummary, pySort]

/-- Claim C2, witness.  The general aggregation conjunct at the concrete
scenario poll: both surviving entries are named `app.exe`. -/
theorem claim2_witness :
    (survivors scenInp.items = [scenE1, scenE2] ∧
     ∀ e ∈ [scenE1, scenE2], effName e = "app.exe") ∧
    (∃ g, buildGroups 1 scenInp.items = [("app.exe", g)] ∧
       g.pids = ([scenE1, scenE2]).map (fun e => e.pid) ∧
       g.memory = (([scenE1, scenE2]).map memMB).sum ∧
       g.cpu = (([scenE1, scenE2]).map (fun e => normCpu 1 e.cpu_percent)).sum ∧
       g.status = effStatus ([scenE2].getLastD scenE1) ∧
       ((∀ e ∈ [scenE1, scenE2], e.create_time = some (ctOf e) ∧ ctOf e ≠ 0) →
          ∃ m, g.start_time = some m ∧ m ∈ ([scenE1, scenE2]).map ctOf ∧
            ∀ t ∈ ([scenE1, scenE2]).map ctOf, m ≤ t)) :=
  ⟨⟨by decide, by decide⟩,
   claim2_aggregation.1 1 scenInp.items "app.exe" scenE1 [scenE2]
     (by decide) (by decide)⟩

end ProcessData
